import Mathlib

/-!
MiniLedger: a shallow embedding of the ledger core (merchants, per-currency
balances, transfers with a percentage fee, idempotency records) and proofs of
the behavioural claims about it.

Monetary amounts are exact decimals in the source (Python `Decimal` stored as
`Numeric(20,8)`); we embed them as rationals (`ℚ`).  Timestamps are abstracted
to a logical clock (`Nat`).  JSON response dictionaries are embedded as
insertion-ordered association lists, matching Python `dict` semantics.
-/

deriving instance DecidableEq for Except

namespace MiniLedger

/-- A JSON-like value as it appears in a stored response snapshot. -/
inductive JVal where
  | s (v : String)
  | n (v : Nat)
  | q (v : ℚ)
  | b (v : Bool)
deriving DecidableEq, Repr

/-- A Python dict embedded as an insertion-ordered association list. -/
abbrev Dict := List (String × JVal)

/-- Python `d[k]` lookup (first matching key). -/
def dictGet (d : Dict) (k : String) : Option JVal :=
  (d.find? (fun p => p.1 == k)).map (fun p => p.2)

/-- Python `d[k] = v`: replace in place if the key exists, else append. -/
def dictSet : Dict → String → JVal → Dict
  | [], k, v => [(k, v)]
  | (k', v') :: rest, k, v =>
      if k' == k then (k', v) :: rest else (k', v') :: dictSet rest k v

/-- The keys of a dict, in insertion order. -/
def dictKeys (d : Dict) : List String := d.map Prod.fst

/-- `domain/entities.py` Balance: one row per (merchant, currency). -/
structure Balance where
  merchant_name : String
  currency : String
  amount : ℚ
deriving DecidableEq, Repr

/-- `domain/entities.py` Transfer (with its DB surrogate id assigned). -/
structure Transfer where
  id : Nat
  from_merchant : String
  to_merchant : String
  currency : String
  amount : ℚ
  fee : ℚ
  idempotency_key : String
  created_at : Nat
deriving DecidableEq, Repr

/-- `infrastructure/models.py` IdempotencyKeyModel row. -/
structure IdemRecord where
  idempotency_key : String
  transfer_id : Nat
  response_data : Dict
deriving DecidableEq, Repr

/-- The ledger store: the four record sets plus the id sequence and a logical
clock standing in for `datetime.utcnow()`. -/
structure State where
  merchants : List (String × Nat)
  balances : List Balance
  transfers : List Transfer
  idempotency : List IdemRecord
  nextTransferId : Nat
  clock : Nat
deriving DecidableEq, Repr

def State.empty : State :=
  { merchants := [], balances := [], transfers := [], idempotency := []
    nextTransferId := 1, clock := 0 }

/-- Errors raised by the balance repository (`ValueError`s in the source,
distinguished here by their messages). -/
inductive BalErr where
  /-- `add_amount`: "Balance cannot be negative". -/
  | balanceNegative
  /-- `subtract_amount`: "Insufficient funds: no balance found for ...". -/
  | noBalanceFound
  /-- `subtract_amount`: "Insufficient funds: balance would become negative". -/
  | wouldBecomeNegative
deriving DecidableEq, Repr

/-- Domain-level errors surfaced by the use cases. -/
inductive DomErr where
  | merchantNotFound (name : String)
  | invalidTransfer
  | insufficientFunds
  /-- `ValueError` for a negative initial balance. -/
  | negativeInitialBalance
  /-- `ValueError` for a duplicate merchant name. -/
  | alreadyExists
  /-- `ValueError` propagated from entity or fee validation. -/
  | valueError
deriving DecidableEq, Repr

/-- `MerchantRepository.get_by_name`. -/
def merchantGetByName (st : State) (name : String) : Option (String × Nat) :=
  st.merchants.find? (fun m => m.1 == name)

/-- The where-clause of the balance queries: match on (merchant, currency). -/
def balPred (name cur : String) (b : Balance) : Bool :=
  b.merchant_name == name && b.currency == cur

/-- `BalanceRepository.get`: the unique row for (merchant, currency), if any. -/
def balanceGet (st : State) (name cur : String) : Option Balance :=
  st.balances.find? (balPred name cur)

/-- Set the amount of a row when it is the (merchant, currency) row. -/
def balUpd (name cur : String) (q : ℚ) (b : Balance) : Balance :=
  if balPred name cur b then { b with amount := q } else b

/-- Replace the amount of the (merchant, currency) row (ORM row update). -/
def balanceUpdateAmount (st : State) (name cur : String) (q : ℚ) : State :=
  { st with balances := st.balances.map (balUpd name cur q) }

/-- `BalanceRepository.add_amount`: credit under lock; creates the row on
first credit, rejects any mutation that would make the amount negative. -/
def addAmount (st : State) (name cur : String) (amt : ℚ) :
    Except BalErr (Balance × State) :=
  match balanceGet st name cur with
  | some b =>
      let newAmount := b.amount + amt
      if newAmount < 0 then .error .balanceNegative
      else
        .ok ({ b with amount := newAmount }, balanceUpdateAmount st name cur newAmount)
  | none =>
      if amt < 0 then .error .balanceNegative
      else
        .ok (⟨name, cur, amt⟩,
             { st with balances := st.balances ++ [⟨name, cur, amt⟩] })

/-- `BalanceRepository.subtract_amount`: debit under lock; fails when the row
is missing or the new amount would be negative. -/
def subtractAmount (st : State) (name cur : String) (amt : ℚ) :
    Except BalErr (Balance × State) :=
  match balanceGet st name cur with
  | none => .error .noBalanceFound
  | some b =>
      let newAmount := b.amount - amt
      if newAmount < 0 then .error .wouldBecomeNegative
      else
        .ok ({ b with amount := newAmount }, balanceUpdateAmount st name cur newAmount)

/-- `TransferRepository.create`: assign the next surrogate id and insert. -/
def transferCreate (st : State) (from_m to_m cur : String) (amount fee : ℚ)
    (key : String) : Transfer × State :=
  let t : Transfer :=
    { id := st.nextTransferId, from_merchant := from_m, to_merchant := to_m
      currency := cur, amount := amount, fee := fee
      idempotency_key := key, created_at := st.clock }
  (t, { st with transfers := st.transfers ++ [t]
                nextTransferId := st.nextTransferId + 1
                clock := st.clock + 1 })

/-- `IdempotencyRepository.get`: stored response snapshot for a key. -/
def idemGet (st : State) (key : String) : Option Dict :=
  (st.idempotency.find? (fun r => r.idempotency_key == key)).map
    (fun r => r.response_data)

/-- `IdempotencyRepository.store`. -/
def idemStore (st : State) (key : String) (tid : Nat) (resp : Dict) : State :=
  { st with idempotency :=
      st.idempotency ++ [⟨key, tid, resp⟩] }

/-- Round a rational to the nearest integer, ties to even
(Python decimal `ROUND_HALF_EVEN`, the default used by `quantize`). -/
def roundHalfEven (x : ℚ) : ℤ :=
  let f := ⌊x⌋
  let r := x - (f : ℚ)
  if r < 1/2 then f
  else if 1/2 < r then f + 1
  else if f % 2 = 0 then f else f + 1

/-- Python `Decimal.quantize(Decimal("0.00000001"))`: round to exactly 8
fractional digits, half to even. -/
def quantize8 (x : ℚ) : ℚ :=
  (roundHalfEven (x * 100000000) : ℚ) / 100000000

/-- `PercentageFeeCalculator.calculate_fee`: rejects non-positive amounts,
otherwise `quantize(amount * percent / 100, 8 digits)`. -/
def calculate_fee (feePercent : ℚ) (amount : ℚ) : Except DomErr ℚ :=
  if amount ≤ 0 then .error .valueError
  else .ok (quantize8 (amount * feePercent / 100))

/-- `CreateMerchantUseCase.execute`: reject a negative initial balance, then a
taken name; create the merchant; create a balance row only when the initial
balance is strictly positive (entity validation included). -/
def createMerchant (st : State) (name cur : String) (init : ℚ) :
    Except DomErr ((String × Nat) × State) :=
  if init < 0 then .error .negativeInitialBalance
  else
    match merchantGetByName st name with
    | some _ => .error .alreadyExists
    | none =>
        if name = "" then .error .valueError
        else
          let m := (name, st.clock)
          let st1 := { st with merchants := st.merchants ++ [m], clock := st.clock + 1 }
          if 0 < init then
            if cur = "" then .error .valueError
            else .ok (m, { st1 with balances := st1.balances ++ [⟨name, cur, init⟩] })
          else .ok (m, st1)

/-- Result shape of `GetBalanceUseCase.execute`: a single-currency answer or
the full balance list. -/
inductive BalanceResp where
  | single (merchant_name currency : String) (amount : ℚ)
  | all (merchant_name : String) (balances : List (String × ℚ))
deriving DecidableEq, Repr

/-- `BalanceRepository.get_all_for_merchant`. -/
def allBalancesFor (st : State) (name : String) : List (String × ℚ) :=
  (st.balances.filter (fun b => b.merchant_name == name)).map
    (fun b => (b.currency, b.amount))

/-- `GetBalanceUseCase.execute`.  The Python guard `if currency:` is truthy
only for a present, non-empty string; a missing row for a named currency
yields amount 0 rather than an error. -/
def getBalance (st : State) (name : String) (ocur : Option String) :
    Except DomErr BalanceResp :=
  match merchantGetByName st name with
  | none => .error (.merchantNotFound name)
  | some _ =>
      match ocur with
      | some c =>
          if c = "" then .ok (.all name (allBalancesFor st name))
          else
            match balanceGet st name c with
            | none => .ok (.single name c 0)
            | some b => .ok (.single name b.currency b.amount)
      | none => .ok (.all name (allBalancesFor st name))

/-- `ExecuteTransferUseCase.execute`: idempotency probe, merchant and
payload validation, fee computation, debit then credit (both folded to
`InsufficientFunds` on a balance `ValueError`), transfer-entity validation,
transfer insertion and idempotency-record insertion. -/
def executeTransfer (p : ℚ) (st : State) (from_m to_m cur : String)
    (amount : ℚ) (key : String) : Except DomErr (Dict × State) :=
  match idemGet st key with
  | some stored => .ok (stored, st)
  | none =>
      match merchantGetByName st from_m with
      | none => .error (.merchantNotFound from_m)
      | some _ =>
          match merchantGetByName st to_m with
          | none => .error (.merchantNotFound to_m)
          | some _ =>
              if from_m = to_m then .error .invalidTransfer
              else if amount ≤ 0 then .error .invalidTransfer
              else
                match calculate_fee p amount with
                | .error e => .error e
                | .ok fee =>
                    let total_debit := amount + fee
                    match subtractAmount st from_m cur total_debit with
                    | .error _ => .error .insufficientFunds
                    | .ok (_, st1) =>
                        match addAmount st1 to_m cur amount with
                        | .error _ => .error .insufficientFunds
                        | .ok (_, st2) =>
                            if fee < 0 then .error .valueError
                            else if key = "" then .error .valueError
                            else
                              let (t, st3) :=
                                transferCreate st2 from_m to_m cur amount fee key
                              let resp : Dict :=
                                [("transfer_id", .n t.id),
                                 ("from_merchant", .s from_m),
                                 ("to_merchant", .s to_m),
                                 ("currency", .s cur),
                                 ("amount", .q amount),
                                 ("fee", .q fee),
                                 ("created_at", .n t.created_at)]
                              let st4 := idemStore st3 key t.id resp
                              .ok (resp, st4)

/-- The `get_db` transaction wrapper: commit the session state on success,
roll everything back on any exception. -/
def executeTransferTx (p : ℚ) (st : State) (from_m to_m cur : String)
    (amount : ℚ) (key : String) : Except DomErr Dict × State :=
  match executeTransfer p st from_m to_m cur amount key with
  | .ok (r, st') => (.ok r, st')
  | .error e => (.error e, st)

/-- Insert a transfer into a list sorted by `created_at` descending
(stable: ties keep earlier rows first). -/
def insertDesc (t : Transfer) : List Transfer → List Transfer
  | [] => [t]
  | u :: rest =>
      if u.created_at < t.created_at then t :: u :: rest
      else u :: insertDesc t rest

/-- `ORDER BY created_at DESC`. -/
def sortByCreatedDesc (l : List Transfer) : List Transfer :=
  l.foldr insertDesc []

/-- One optional where-clause of `TransferRepository.list`: Python skips the
clause when the filter value is falsy (`None` or the empty string). -/
def applyFilter (o : Option String) (f : Transfer → String)
    (l : List Transfer) : List Transfer :=
  match o with
  | none => l
  | some s => if s = "" then l else l.filter (fun t => f t == s)

/-- `TransferRepository.list`: optional filters, order by creation time
descending, then `LIMIT limit OFFSET offset`. -/
def transferList (st : State) (ofrom oto ocur : Option String)
    (limit offset : Nat) : List Transfer :=
  let q1 := applyFilter ofrom (fun t => t.from_merchant) st.transfers
  let q2 := applyFilter oto (fun t => t.to_merchant) q1
  let q3 := applyFilter ocur (fun t => t.currency) q2
  ((sortByCreatedDesc q3).drop offset).take limit

/-- The per-row dict built by `ListTransfersUseCase.execute`. -/
def transferDict (t : Transfer) : Dict :=
  [("transfer_id", .n t.id), ("from_merchant", .s t.from_merchant),
   ("to_merchant", .s t.to_merchant), ("currency", .s t.currency),
   ("amount", .q t.amount), ("fee", .q t.fee), ("created_at", .n t.created_at)]

/-- `ListTransfersUseCase.execute`. -/
def listTransfersUseCase (st : State) (ofrom oto ocur : Option String)
    (limit offset : Nat) : List Dict :=
  (transferList st ofrom oto ocur limit offset).map transferDict

/-- The body of a POST /transfers request after schema validation. -/
structure TransferReq where
  from_merchant : String
  to_merchant : String
  currency : String
  amount : ℚ
deriving DecidableEq, Repr

/-- HTTP-level error outcomes of the transfer route. -/
inductive RouteErr where
  | badRequest
  | notFound
  | conflict
deriving DecidableEq, Repr

def duplicateMessage (key : String) : String :=
  "This Idempotency-Key " ++ key ++
    " was already used. Returning previous transfer result."

def isSpace (c : Char) : Bool :=
  c == ' ' || c == '\t' || c == '\n' || c == '\r'

/-- Python `str.strip()`: remove leading and trailing whitespace. -/
def strip (s : String) : String :=
  ⟨((s.data.dropWhile isSpace).reverse.dropWhile isSpace).reverse⟩

/-- `api/routes.py execute_transfer`: reject a blank Idempotency-Key header,
probe the idempotency store, and decorate the response dict with
`is_duplicate` and `message` before returning it. -/
def routeExecuteTransfer (p : ℚ) (st : State) (req : TransferReq)
    (headerKey : String) : Except RouteErr (Dict × State) :=
  if strip headerKey = "" then .error .badRequest
  else
    let key := strip headerKey
    match idemGet st key with
    | some stored =>
        .ok (dictSet (dictSet stored "is_duplicate" (.b true))
               "message" (.s (duplicateMessage key)), st)
    | none =>
        match executeTransfer p st req.from_merchant req.to_merchant
            req.currency req.amount key with
        | .ok (r, st') =>
            .ok (dictSet (dictSet r "is_duplicate" (.b false))
                   "message" (.s "Transfer executed successfully"), st')
        | .error (.merchantNotFound _) => .error .notFound
        | .error .insufficientFunds => .error .conflict
        | .error _ => .error .badRequest

/-! Concrete scenario states (the store after `create_merchant("alice","BTC",1)`
and `create_merchant("bob","BTC",0)` from an empty store), used to exercise
the theorems on explicit inputs. -/

/-- The store after creating merchant alice with 1 BTC. -/
def stAlice : State :=
  { merchants := [("alice", 0)], balances := [⟨"alice", "BTC", 1⟩]
    transfers := [], idempotency := [], nextTransferId := 1, clock := 1 }

/-- The store after additionally creating merchant bob with 0 balance. -/
def stAliceBob : State :=
  { merchants := [("alice", 0), ("bob", 1)], balances := [⟨"alice", "BTC", 1⟩]
    transfers := [], idempotency := [], nextTransferId := 1, clock := 2 }

/-- A concrete transfer of 0.00005 BTC from alice to bob, fee percent 0.1. -/
def runAB : Except DomErr (Dict × State) :=
  executeTransfer (1/10) stAliceBob "alice" "bob" "BTC" (1/20000) "key1"

/-- The response snapshot produced by `runAB`. -/
def respAB : Dict :=
  [("transfer_id", .n 1), ("from_merchant", .s "alice"), ("to_merchant", .s "bob"),
   ("currency", .s "BTC"), ("amount", .q (1/20000)), ("fee", .q (1/20000000)),
   ("created_at", .n 2)]

/-- The store after `runAB`: alice debited 0.00005005, bob credited 0.00005,
one transfer row and one idempotency row for "key1". -/
def stAB1 : State :=
  { merchants := [("alice", 0), ("bob", 1)]
    balances := [⟨"alice", "BTC", 19998999/20000000⟩, ⟨"bob", "BTC", 1/20000⟩]
    transfers := [{ id := 1, from_merchant := "alice", to_merchant := "bob"
                    currency := "BTC", amount := 1/20000, fee := 1/20000000
                    idempotency_key := "key1", created_at := 2 }]
    idempotency := [⟨"key1", 1, respAB⟩]
    nextTransferId := 2, clock := 3 }

/-- The same concrete transfer issued through the HTTP route. -/
def routeReqAB : TransferReq := ⟨"alice", "bob", "BTC", 1/20000⟩

/-- A second, different payload reusing the same idempotency key. -/
def routeReqBA : TransferReq := ⟨"bob", "alice", "BTC", 1⟩

def routeRunAB : Except RouteErr (Dict × State) :=
  routeExecuteTransfer (1/10) stAliceBob routeReqAB "key1"

/-- The HTTP-level response dict of `routeRunAB`: the use-case snapshot plus
the `is_duplicate` and `message` fields added by the route. -/
def routeRespAB : Dict :=
  respAB ++ [("is_duplicate", .b false),
             ("message", .s "Transfer executed successfully")]

/-! ### Properties of the rounding mode -/

theorem roundHalfEven_dist_le (x : ℚ) (m : ℤ) :
    |(roundHalfEven x : ℚ) - x| ≤ |(m : ℚ) - x| := by
  have hfle : (⌊x⌋ : ℚ) ≤ x := Int.floor_le x
  have hflt : x < (⌊x⌋ : ℚ) + 1 := Int.lt_floor_add_one x
  have hmcase : ((m : ℚ) ≤ (⌊x⌋ : ℚ)) ∨ ((⌊x⌋ : ℚ) + 1 ≤ (m : ℚ)) := by
    rcases le_or_lt m ⌊x⌋ with h | h
    · exact Or.inl (by exact_mod_cast h)
    · refine Or.inr ?_
      have h' : ⌊x⌋ + 1 ≤ m := h
      exact_mod_cast h'
  have hm1 : (m : ℚ) ≤ (⌊x⌋ : ℚ) → x - (⌊x⌋ : ℚ) ≤ |(m : ℚ) - x| := by
    intro hmm
    rw [abs_sub_comm, abs_of_nonneg (by linarith)]
    linarith
  have hm2 : (⌊x⌋ : ℚ) + 1 ≤ (m : ℚ) → (⌊x⌋ : ℚ) + 1 - x ≤ |(m : ℚ) - x| := by
    intro hmm
    rw [abs_of_nonneg (by linarith)]
    linarith
  have efl : |((⌊x⌋ : ℤ) : ℚ) - x| = x - (⌊x⌋ : ℚ) := by
    rw [abs_sub_comm, abs_of_nonneg (by linarith)]
  have efl1 : |((⌊x⌋ + 1 : ℤ) : ℚ) - x| = (⌊x⌋ : ℚ) + 1 - x := by
    push_cast
    rw [abs_of_nonneg (by linarith)]
  simp only [roundHalfEven]
  split_ifs with h1 h2 h3
  · rw [efl]
    rcases hmcase with hc | hc
    · exact hm1 hc
    · have := hm2 hc
      linarith
  · rw [efl1]
    rcases hmcase with hc | hc
    · have := hm1 hc
      linarith
    · exact hm2 hc
  · rw [efl]
    rcases hmcase with hc | hc
    · exact hm1 hc
    · have := hm2 hc
      linarith
  · rw [efl1]
    rcases hmcase with hc | hc
    · have := hm1 hc
      linarith
    · exact hm2 hc

theorem roundHalfEven_tie_even (x : ℚ)
    (h : |(roundHalfEven x : ℚ) - x| = 1/2) : Even (roundHalfEven x) := by
  have hfle : (⌊x⌋ : ℚ) ≤ x := Int.floor_le x
  have hflt : x < (⌊x⌋ : ℚ) + 1 := Int.lt_floor_add_one x
  simp only [roundHalfEven] at h ⊢
  split_ifs at h ⊢ with h1 h2 h3
  · rw [abs_sub_comm, abs_of_nonneg (by linarith)] at h
    exact absurd h1 (by rw [h] at h1; linarith)
  · rw [show ((⌊x⌋ + 1 : ℤ) : ℚ) = (⌊x⌋ : ℚ) + 1 by push_cast; ring,
      abs_of_nonneg (by linarith)] at h
    linarith
  · exact Int.even_iff.mpr h3
  · rcases Int.even_or_odd ⌊x⌋ with he | ho
    · exact absurd (Int.even_iff.mp he) h3
    · exact ho.add_one

theorem quantize8_digits (x : ℚ) :
    ∃ n : ℤ, quantize8 x = (n : ℚ) / 100000000 :=
  ⟨roundHalfEven (x * 100000000), rfl⟩

theorem quantize8_sub_eq (x : ℚ) :
    quantize8 x - x
      = ((roundHalfEven (x * 100000000) : ℚ) - x * 100000000) / 100000000 := by
  simp only [quantize8]
  ring

theorem quantize8_nearest (x : ℚ) (m : ℤ) :
    |quantize8 x - x| ≤ |(m : ℚ) / 100000000 - x| := by
  have h := roundHalfEven_dist_le (x * 100000000) m
  have h8 : (0 : ℚ) < 100000000 := by norm_num
  have e2 : (m : ℚ) / 100000000 - x = ((m : ℚ) - x * 100000000) / 100000000 := by
    ring
  rw [quantize8_sub_eq, e2, abs_div, abs_div, abs_of_pos h8]
  exact (div_le_div_iff_of_pos_right h8).mpr h

theorem quantize8_tie (x : ℚ) (h : |quantize8 x - x| = 1/200000000) :
    ∃ n : ℤ, Even n ∧ quantize8 x = (n : ℚ) / 100000000 := by
  refine ⟨roundHalfEven (x * 100000000), ?_, rfl⟩
  apply roundHalfEven_tie_even
  have h8 : (0 : ℚ) < 100000000 := by norm_num
  have e : |quantize8 x - x|
      = |(roundHalfEven (x * 100000000) : ℚ) - x * 100000000| / 100000000 := by
    rw [quantize8_sub_eq, abs_div, abs_of_pos h8]
  rw [e] at h
  have := (div_eq_iff (by norm_num : (100000000 : ℚ) ≠ 0)).mp h
  rw [this]
  norm_num

/-! ### Claim C4: the fee contract -/

/-- C4.  For every amount > 0, `calculate_fee` returns exactly
`amount * percent / 100` rounded to 8 fractional digits: the result is an
integer multiple of 10⁻⁸, is at least as close to the exact value as any
other such multiple, and a tie (distance exactly half an ulp) is resolved to
an even last digit (round-half-even).  It is a pure function of the amount
and the configured percent, and for every amount ≤ 0 it fails with the
`InvalidAmount` `ValueError`. -/
theorem calculate_fee_spec (p a : ℚ) :
    (a ≤ 0 → calculate_fee p a = .error .valueError)
    ∧ (0 < a →
        calculate_fee p a = .ok (quantize8 (a * p / 100))
        ∧ (∃ n : ℤ, quantize8 (a * p / 100) = (n : ℚ) / 100000000)
        ∧ (∀ m : ℤ, |quantize8 (a * p / 100) - a * p / 100|
              ≤ |(m : ℚ) / 100000000 - a * p / 100|)
        ∧ (|quantize8 (a * p / 100) - a * p / 100| = 1/200000000 →
            ∃ n : ℤ, Even n ∧ quantize8 (a * p / 100) = (n : ℚ) / 100000000))
    ∧ calculate_fee p a = calculate_fee p a := by
  refine ⟨?_, ?_, rfl⟩
  · intro h
    simp [calculate_fee, h]
  · intro h
    exact ⟨by simp [calculate_fee, not_le.mpr h], quantize8_digits _,
      fun m => quantize8_nearest _ m, quantize8_tie _⟩

/-- Witness for C4 at percent 0.1 and amount 1: the fee is 0.001. -/
theorem calculate_fee_spec_witness :
    (0 : ℚ) < 1 ∧ calculate_fee (1/10) 1 = .ok (quantize8 (1 * (1/10) / 100)) :=
  ⟨by decide, ((calculate_fee_spec (1/10) 1).2.1 (by decide)).1⟩

/-! ### Concrete evaluation of the alice-to-bob scenario -/

theorem createAlice_eq :
    createMerchant State.empty "alice" "BTC" 1 = .ok (("alice", 0), stAlice) := by
  simp [createMerchant, merchantGetByName, State.empty, stAlice]

theorem createBob_eq :
    createMerchant stAlice "bob" "BTC" 0 = .ok (("bob", 1), stAliceBob) := by
  simp [createMerchant, merchantGetByName, stAlice, stAliceBob, List.find?]

theorem runAB_eq : runAB = .ok (respAB, stAB1) := by
  simp [runAB, executeTransfer, idemGet, merchantGetByName, balanceGet,
    subtractAmount, addAmount, balanceUpdateAmount, balPred, balUpd,
    transferCreate, idemStore,
    calculate_fee, stAliceBob, List.find?, respAB, stAB1, quantize8, roundHalfEven]
  norm_num
  simp [balPred, balUpd, List.find?]

/-! ### Claim C3: the concrete alice-to-bob scenario -/

/-- C3.  Starting from an empty store, create alice with 1 BTC and bob with
0; transfer 0.00005 BTC (= 1/20000) from alice to bob at fee percent 0.1.
The computed fee is 0.00000005, alice ends with 0.99994995 BTC and bob with
0.00005 BTC. -/
theorem scenario_small_transfer :
    createMerchant State.empty "alice" "BTC" 1 = .ok (("alice", 0), stAlice)
    ∧ createMerchant stAlice "bob" "BTC" 0 = .ok (("bob", 1), stAliceBob)
    ∧ runAB = .ok (respAB, stAB1)
    ∧ dictGet respAB "fee" = some (.q (5/100000000))
    ∧ balanceGet stAB1 "alice" "BTC" = some ⟨"alice", "BTC", 99994995/100000000⟩
    ∧ balanceGet stAB1 "bob" "BTC" = some ⟨"bob", "BTC", 5/100000⟩ := by
  refine ⟨createAlice_eq, createBob_eq, runAB_eq, ?_, ?_, ?_⟩
  · simp [dictGet, respAB, List.find?]
    norm_num
  · simp [balanceGet, stAB1, balPred, List.find?]
    norm_num
  · simp [balanceGet, stAB1, balPred, List.find?]
    norm_num

/-! ### Helper lemmas about the balance store -/

theorem find?_map_pred {α : Type} (f : α → α) (p : α → Bool)
    (hp : ∀ a, p (f a) = p a) :
    ∀ l : List α, (l.map f).find? p = (l.find? p).map f := by
  intro l
  induction l with
  | nil => rfl
  | cons a t ih =>
      by_cases h : p a
      · rw [List.map_cons, List.find?_cons_of_pos _ (by rw [hp]; exact h),
          List.find?_cons_of_pos _ h, Option.map_some']
      · rw [List.map_cons,
          List.find?_cons_of_neg _ (by rw [hp]; simpa using h),
          List.find?_cons_of_neg _ (by simpa using h), ih]

theorem balPred_balUpd (name cur : String) (q : ℚ) (x : Balance) :
    balPred name cur (balUpd name cur q x) = balPred name cur x := by
  unfold balUpd
  split <;> rfl

/-- After updating the unique (merchant, currency) row, looking it up again
returns the row with the new amount: mutations persist. -/
theorem balanceGet_update (st : State) (name cur : String) (q : ℚ)
    (b : Balance) (hb : balanceGet st name cur = some b) :
    balanceGet (balanceUpdateAmount st name cur q) name cur
      = some { b with amount := q } := by
  have hfind := find?_map_pred (balUpd name cur q) (balPred name cur)
    (balPred_balUpd name cur q) st.balances
  have hpb : balPred name cur b = true := List.find?_some hb
  simp only [balanceGet, balanceUpdateAmount] at hb ⊢
  rw [hfind, hb, Option.map_some']
  unfold balUpd
  rw [if_pos hpb]

/-- A successful debit touches only the balances table. -/
theorem subtractAmount_ok_fields (st : State) (name cur : String) (amt : ℚ)
    (b : Balance) (st' : State)
    (h : subtractAmount st name cur amt = .ok (b, st')) :
    st'.merchants = st.merchants ∧ st'.transfers = st.transfers
      ∧ st'.idempotency = st.idempotency
      ∧ st'.nextTransferId = st.nextTransferId ∧ st'.clock = st.clock := by
  unfold subtractAmount at h
  split at h
  · simp at h
  · dsimp only at h
    split at h
    · simp at h
    · simp only [Except.ok.injEq, Prod.mk.injEq] at h
      obtain ⟨-, h2⟩ := h
      subst h2
      exact ⟨rfl, rfl, rfl, rfl, rfl⟩

/-- A successful credit touches only the balances table. -/
theorem addAmount_ok_fields (st : State) (name cur : String) (amt : ℚ)
    (b : Balance) (st' : State)
    (h : addAmount st name cur amt = .ok (b, st')) :
    st'.merchants = st.merchants ∧ st'.transfers = st.transfers
      ∧ st'.idempotency = st.idempotency
      ∧ st'.nextTransferId = st.nextTransferId ∧ st'.clock = st.clock := by
  unfold addAmount at h
  split at h
  · dsimp only at h
    split at h
    · simp at h
    · simp only [Except.ok.injEq, Prod.mk.injEq] at h
      obtain ⟨-, h2⟩ := h
      subst h2
      exact ⟨rfl, rfl, rfl, rfl, rfl⟩
  · split at h
    · simp at h
    · simp only [Except.ok.injEq, Prod.mk.injEq] at h
      obtain ⟨-, h2⟩ := h
      subst h2
      exact ⟨rfl, rfl, rfl, rfl, rfl⟩

/-! ### Claim C5: the debit contract -/

/-- C5.  `subtract_amount` fails with the no-balance error when no row
exists for the (merchant, currency) pair; fails with the
would-become-negative error when `current - amount < 0`; otherwise it
subtracts and persists the new amount. -/
theorem subtract_amount_spec (st : State) (name cur : String) (amt : ℚ) :
    (balanceGet st name cur = none →
      subtractAmount st name cur amt = .error .noBalanceFound)
    ∧ (∀ b : Balance, balanceGet st name cur = some b →
        (b.amount - amt < 0 →
          subtractAmount st name cur amt = .error .wouldBecomeNegative)
        ∧ (0 ≤ b.amount - amt →
            subtractAmount st name cur amt
              = .ok ({ b with amount := b.amount - amt },
                     balanceUpdateAmount st name cur (b.amount - amt))
            ∧ balanceGet (balanceUpdateAmount st name cur (b.amount - amt))
                name cur = some { b with amount := b.amount - amt })) := by
  refine ⟨?_, ?_⟩
  · intro h
    simp [subtractAmount, h]
  · intro b hb
    refine ⟨?_, ?_⟩
    · intro hneg
      simp [subtractAmount, hb, hneg]
    · intro hpos
      have hno : ¬(b.amount - amt < 0) := not_lt.mpr hpos
      exact ⟨by simp [subtractAmount, hb, hno],
        balanceGet_update st name cur _ b hb⟩

/-- Witness for C5: no row for bob, insufficient row for alice at amount 2,
successful debit of 0.5 from alice. -/
theorem subtract_amount_spec_witness :
    (balanceGet stAliceBob "bob" "BTC" = none
      ∧ subtractAmount stAliceBob "bob" "BTC" 1 = .error .noBalanceFound)
    ∧ (balanceGet stAliceBob "alice" "BTC" = some ⟨"alice", "BTC", 1⟩
      ∧ (1 : ℚ) - 2 < 0
      ∧ subtractAmount stAliceBob "alice" "BTC" 2 = .error .wouldBecomeNegative)
    ∧ ((0 : ℚ) ≤ 1 - 1/2
      ∧ subtractAmount stAliceBob "alice" "BTC" (1/2)
          = .ok ({ merchant_name := "alice", currency := "BTC", amount := 1 - 1/2 },
                 balanceUpdateAmount stAliceBob "alice" "BTC" (1 - 1/2))) :=
  ⟨⟨rfl, (subtract_amount_spec stAliceBob "bob" "BTC" 1).1 rfl⟩,
   ⟨rfl, by norm_num,
    (((subtract_amount_spec stAliceBob "alice" "BTC" 2).2 ⟨"alice", "BTC", 1⟩ rfl).1
      (by norm_num))⟩,
   ⟨by norm_num,
    ((((subtract_amount_spec stAliceBob "alice" "BTC" (1/2)).2 ⟨"alice", "BTC", 1⟩
        rfl).2 (by norm_num)).1)⟩⟩

/-! ### Claim C9: the credit contract does not validate the sign -/

/-- C9.  On an existing row `add_amount` never validates the sign of the
delta itself: any amount (negative included) succeeds exactly when
`current + amount ≥ 0`, persisting the sum, and errors exactly when
`current + amount < 0`; only the row-creation path rejects `amount < 0`
by itself. -/
theorem add_amount_spec (st : State) (name cur : String) (amt : ℚ) :
    (∀ b : Balance, balanceGet st name cur = some b →
        (b.amount + amt < 0 →
          addAmount st name cur amt = .error .balanceNegative)
        ∧ (0 ≤ b.amount + amt →
            addAmount st name cur amt
              = .ok ({ b with amount := b.amount + amt },
                     balanceUpdateAmount st name cur (b.amount + amt))
            ∧ balanceGet (balanceUpdateAmount st name cur (b.amount + amt))
                name cur = some { b with amount := b.amount + amt }))
    ∧ (balanceGet st name cur = none → amt < 0 →
        addAmount st name cur amt = .error .balanceNegative) := by
  refine ⟨?_, ?_⟩
  · intro b hb
    refine ⟨?_, ?_⟩
    · intro hneg
      simp [addAmount, hb, hneg]
    · intro hpos
      have hno : ¬(b.amount + amt < 0) := not_lt.mpr hpos
      exact ⟨by simp [addAmount, hb, hno],
        balanceGet_update st name cur _ b hb⟩
  · intro h hneg
    simp [addAmount, h, hneg]

/-- Witness for C9: on alice's row of 1 BTC, a credit of -2 errors, a credit
of -0.5 succeeds as an unguarded debit; on the creation path a negative
amount is rejected. -/
theorem add_amount_spec_witness :
    (balanceGet stAliceBob "alice" "BTC" = some ⟨"alice", "BTC", 1⟩
      ∧ (1 : ℚ) + (-2) < 0
      ∧ addAmount stAliceBob "alice" "BTC" (-2) = .error .balanceNegative)
    ∧ ((0 : ℚ) ≤ 1 + (-1/2)
      ∧ addAmount stAliceBob "alice" "BTC" (-1/2)
          = .ok ({ merchant_name := "alice", currency := "BTC", amount := 1 + (-1/2) },
                 balanceUpdateAmount stAliceBob "alice" "BTC" (1 + (-1/2))))
    ∧ (balanceGet stAliceBob "bob" "BTC" = none ∧ (-1 : ℚ) < 0
      ∧ addAmount stAliceBob "bob" "BTC" (-1) = .error .balanceNegative) :=
  ⟨⟨rfl, by norm_num,
    (((add_amount_spec stAliceBob "alice" "BTC" (-2)).1 ⟨"alice", "BTC", 1⟩ rfl).1
      (by norm_num))⟩,
   ⟨by norm_num,
    ((((add_amount_spec stAliceBob "alice" "BTC" (-1/2)).1 ⟨"alice", "BTC", 1⟩
        rfl).2 (by norm_num)).1)⟩,
   ⟨rfl, by norm_num,
    ((add_amount_spec stAliceBob "bob" "BTC" (-1)).2 rfl (by norm_num))⟩⟩

/-! ### Claim C7: balance queries for a named currency -/

/-- C7.  `get_balance(name, currency)` with a non-empty currency fails with
`MerchantNotFound` for an unknown merchant; for an existing merchant it
returns amount 0 when no row exists for that currency, and the row's amount
otherwise. -/
theorem get_balance_spec (st : State) (name c : String) (hc : c ≠ "") :
    (merchantGetByName st name = none →
      getBalance st name (some c) = .error (.merchantNotFound name))
    ∧ (∀ m, merchantGetByName st name = some m →
        (balanceGet st name c = none →
          getBalance st name (some c) = .ok (.single name c 0))
        ∧ (∀ b : Balance, balanceGet st name c = some b →
            getBalance st name (some c) = .ok (.single name b.currency b.amount))) := by
  refine ⟨?_, ?_⟩
  · intro h
    simp [getBalance, h]
  · intro m hm
    refine ⟨?_, ?_⟩
    · intro h
      simp [getBalance, hm, hc, h]
    · intro b hb
      simp [getBalance, hm, hc, hb]

/-- Witness for C7: unknown merchant carol errors; alice has no ETH row and
reads 0; alice's BTC row reads 1. -/
theorem get_balance_spec_witness :
    ("ETH" : String) ≠ ""
    ∧ (merchantGetByName stAliceBob "carol" = none
      ∧ getBalance stAliceBob "carol" (some "ETH")
          = .error (.merchantNotFound "carol"))
    ∧ (merchantGetByName stAliceBob "alice" = some ("alice", 0)
      ∧ balanceGet stAliceBob "alice" "ETH" = none
      ∧ getBalance stAliceBob "alice" (some "ETH") = .ok (.single "alice" "ETH" 0))
    ∧ (balanceGet stAliceBob "alice" "BTC" = some ⟨"alice", "BTC", 1⟩
      ∧ getBalance stAliceBob "alice" (some "BTC") = .ok (.single "alice" "BTC" 1)) :=
  ⟨by decide,
   ⟨rfl, (get_balance_spec stAliceBob "carol" "ETH" (by decide)).1 rfl⟩,
   ⟨rfl, rfl,
    ((get_balance_spec stAliceBob "alice" "ETH" (by decide)).2 ("alice", 0) rfl).1 rfl⟩,
   ⟨rfl,
    ((get_balance_spec stAliceBob "alice" "BTC" (by decide)).2 ("alice", 0) rfl).2
      ⟨"alice", "BTC", 1⟩ rfl⟩⟩

/-! ### Claim C8: zero initial balance creates no row yet reads as zero -/

/-- C8.  `create_merchant` with initial balance 0 records the merchant but
creates no balance row for the currency; `get_balance` nonetheless reports
amount 0, the same observable answer produced for a merchant whose stored
row is explicitly 0 — the two cases are indistinguishable at the query
interface. -/
theorem create_merchant_zero_spec (st : State) (name cur : String)
    (hm : merchantGetByName st name = none)
    (hb : balanceGet st name cur = none)
    (hname : name ≠ "") (hcur : cur ≠ "") :
    ∃ st' : State,
      createMerchant st name cur 0 = .ok ((name, st.clock), st')
      ∧ st'.balances = st.balances
      ∧ balanceGet st' name cur = none
      ∧ getBalance st' name (some cur) = .ok (.single name cur 0)
      ∧ (∀ st2 : State, ∀ m, merchantGetByName st2 name = some m →
          balanceGet st2 name cur = some ⟨name, cur, 0⟩ →
          getBalance st2 name (some cur) = .ok (.single name cur 0)) := by
  refine ⟨({ st with merchants := st.merchants ++ [(name, st.clock)], clock := st.clock + 1 }), ?_, rfl, hb, ?_, ?_⟩
  · simp [createMerchant, hm, hname]
  · have hm' : merchantGetByName ({ st with merchants := st.merchants ++ [(name, st.clock)], clock := st.clock + 1 }) name = some (name, st.clock) := by
      simp only [merchantGetByName] at hm ⊢
      rw [List.find?_append, hm, Option.none_or]
      simp [List.find?]
    have hb' : balanceGet ({ st with merchants := st.merchants ++ [(name, st.clock)], clock := st.clock + 1 }) name cur = none := hb
    simp [getBalance, hm', hcur, hb']
  · intro st2 m h1 h2
    simp [getBalance, h1, h2, hcur]

/-- Witness for C8: create carol with 0 initial balance next to alice. -/
theorem create_merchant_zero_spec_witness :
    (merchantGetByName stAlice "carol" = none
      ∧ balanceGet stAlice "carol" "BTC" = none
      ∧ ("carol" : String) ≠ "" ∧ ("BTC" : String) ≠ "")
    ∧ (∃ st' : State,
        createMerchant stAlice "carol" "BTC" 0 = .ok (("carol", stAlice.clock), st')
        ∧ st'.balances = stAlice.balances
        ∧ balanceGet st' "carol" "BTC" = none
        ∧ getBalance st' "carol" (some "BTC") = .ok (.single "carol" "BTC" 0)
        ∧ (∀ st2 : State, ∀ m, merchantGetByName st2 "carol" = some m →
            balanceGet st2 "carol" "BTC" = some ⟨"carol", "BTC", 0⟩ →
            getBalance st2 "carol" (some "BTC") = .ok (.single "carol" "BTC" 0))) :=
  ⟨⟨rfl, rfl, by decide, by decide⟩,
   create_merchant_zero_spec stAlice "carol" "BTC" rfl rfl (by decide) (by decide)⟩

/-! ### Claim C10: an empty-string filter is an absent filter -/

/-- C10.  In `list_transfers`, a filter argument that is the empty string is
treated exactly like an absent filter: the where-clause is skipped, so the
result list is the unfiltered one, both at the repository and at the
use-case level. -/
theorem list_transfers_empty_filter (st : State) (a b c : Option String)
    (lim off : Nat) :
    (transferList st (some "") b c lim off = transferList st none b c lim off)
    ∧ (transferList st a (some "") c lim off = transferList st a none c lim off)
    ∧ (transferList st a b (some "") lim off = transferList st a b none lim off)
    ∧ (listTransfersUseCase st (some "") b c lim off
        = listTransfersUseCase st none b c lim off)
    ∧ (listTransfersUseCase st a (some "") c lim off
        = listTransfersUseCase st a none c lim off)
    ∧ (listTransfersUseCase st a b (some "") lim off
        = listTransfersUseCase st a b none lim off) := by
  refine ⟨?_, ?_, ?_, ?_, ?_, ?_⟩ <;>
    simp [transferList, listTransfersUseCase, applyFilter]

/-! ### The shape of a successful fresh transfer -/

/-- A successful `execute_transfer` on a fresh idempotency key appends
exactly one transfer row carrying that key, stores exactly one idempotency
record pairing the key with the returned snapshot, and the snapshot is the
dict built from the new transfer row. -/
theorem executeTransfer_ok_shape (p : ℚ) (st : State) (f t c : String)
    (a : ℚ) (k : String) (r : Dict) (st' : State)
    (h0 : idemGet st k = none)
    (hx : executeTransfer p st f t c a k = .ok (r, st')) :
    ∃ tr : Transfer,
      st'.transfers = st.transfers ++ [tr]
      ∧ tr.idempotency_key = k
      ∧ st'.idempotency = st.idempotency ++ [⟨k, tr.id, r⟩]
      ∧ r = transferDict tr
      ∧ idemGet st' k = some r := by
  simp only [executeTransfer, h0] at hx
  split at hx
  · simp at hx
  split at hx
  · simp at hx
  split at hx
  · simp at hx
  split at hx
  · simp at hx
  split at hx
  · simp at hx
  rename_i fee hfee
  split at hx
  · simp at hx
  rename_i pr1 b1 st1 heq1
  split at hx
  · simp at hx
  rename_i pr2 b2 st2 heq2
  split at hx
  · simp at hx
  split at hx
  · simp at hx
  dsimp only [transferCreate] at hx
  simp only [Except.ok.injEq, Prod.mk.injEq] at hx
  obtain ⟨hr, hst⟩ := hx
  subst hr
  subst hst
  have e1 := subtractAmount_ok_fields st f c _ b1 st1 heq1
  have e2 := addAmount_ok_fields st1 t c a b2 st2 heq2
  have htr2 : st2.transfers = st.transfers := by
    rw [e2.2.1, e1.2.1]
  have hid2 : st2.idempotency = st.idempotency := by
    rw [e2.2.2.1, e1.2.2.1]
  refine ⟨{ id := st2.nextTransferId, from_merchant := f, to_merchant := t,
            currency := c, amount := a, fee := fee, idempotency_key := k,
            created_at := st2.clock }, ?_, rfl, ?_, rfl, ?_⟩
  · simpa [idemStore] using htr2
  · simpa [idemStore] using hid2
  · simp only [idemGet, idemStore] at h0 ⊢
    have hfn : st.idempotency.find?
        (fun rec => rec.idempotency_key == k) = none :=
      Option.map_eq_none'.mp h0
    rw [hid2, List.find?_append, hfn, Option.none_or]
    simp [List.find?]

/-! ### Claim C1: idempotent replay -/

/-- C1.  If a first `execute_transfer` on a fresh idempotency key succeeds
and stores its snapshot, then a second call with the same key — whatever its
payload, valid or not — returns exactly the stored snapshot with the store
untouched (no validation, fee computation, balance mutation or insertion
happens), and exactly one Transfer row carries that key afterwards. -/
theorem idempotent_replay (p : ℚ) (st0 : State)
    (f1 t1 c1 : String) (a1 : ℚ) (f2 t2 c2 : String) (a2 : ℚ)
    (k : String) (r1 : Dict) (st1 : State)
    (h0 : idemGet st0 k = none)
    (hfresh : st0.transfers.filter (fun tr => tr.idempotency_key == k) = [])
    (hx : executeTransfer p st0 f1 t1 c1 a1 k = .ok (r1, st1)) :
    idemGet st1 k = some r1
    ∧ executeTransfer p st1 f2 t2 c2 a2 k = .ok (r1, st1)
    ∧ (st1.transfers.filter (fun tr => tr.idempotency_key == k)).length = 1 := by
  obtain ⟨tr, htr, hkey, -, -, hget⟩ :=
    executeTransfer_ok_shape p st0 f1 t1 c1 a1 k r1 st1 h0 hx
  refine ⟨hget, ?_, ?_⟩
  · simp only [executeTransfer, hget]
  · rw [htr, List.filter_append, hfresh]
    simp [List.filter, hkey]

/-- Witness for C1: after the concrete alice-to-bob transfer, replaying key1
with a completely different payload returns the stored snapshot verbatim. -/
theorem idempotent_replay_witness :
    (idemGet stAliceBob "key1" = none
      ∧ stAliceBob.transfers.filter (fun tr => tr.idempotency_key == "key1") = []
      ∧ executeTransfer (1/10) stAliceBob "alice" "bob" "BTC" (1/20000) "key1"
          = .ok (respAB, stAB1))
    ∧ (idemGet stAB1 "key1" = some respAB
      ∧ executeTransfer (1/10) stAB1 "bob" "alice" "BTC" 1 "key1"
          = .ok (respAB, stAB1)
      ∧ (stAB1.transfers.filter
          (fun tr => tr.idempotency_key == "key1")).length = 1) :=
  ⟨⟨rfl, rfl, runAB_eq⟩,
   idempotent_replay (1/10) stAliceBob "alice" "bob" "BTC" (1/20000)
     "bob" "alice" "BTC" 1 "key1" respAB stAB1 rfl rfl runAB_eq⟩

/-! ### Claim C2: insufficient funds leaves the store untouched -/

/-- C2.  A transfer request with a fresh key, existing distinct merchants and
a positive amount, whose sender balance is absent or below
`amount + fee`, fails with `InsufficientFunds`; the transaction wrapper
rolls back, so no balance changes and no Transfer or IdempotencyRecord is
created. -/
theorem insufficient_funds_spec (p : ℚ) (st : State) (f t c : String)
    (a : ℚ) (k : String) (mf mt : String × Nat)
    (h0 : idemGet st k = none)
    (hf : merchantGetByName st f = some mf)
    (ht : merchantGetByName st t = some mt)
    (hne : f ≠ t) (hpos : 0 < a)
    (hbal : balanceGet st f c = none
      ∨ ∃ b : Balance, balanceGet st f c = some b
          ∧ b.amount < a + quantize8 (a * p / 100)) :
    executeTransfer p st f t c a k = .error .insufficientFunds
    ∧ executeTransferTx p st f t c a k = (.error .insufficientFunds, st) := by
  have hfee : calculate_fee p a = .ok (quantize8 (a * p / 100)) := by
    simp [calculate_fee, not_le.mpr hpos]
  have hmain : executeTransfer p st f t c a k = .error .insufficientFunds := by
    simp only [executeTransfer, h0, hf, ht, hfee]
    rw [if_neg hne, if_neg (not_le.mpr hpos)]
    rcases hbal with hb | ⟨b, hb, hlt⟩
    · simp [subtractAmount, hb]
    · have hneg : b.amount - (a + quantize8 (a * p / 100)) < 0 := by linarith
      simp [subtractAmount, hb, hneg]
  exact ⟨hmain, by simp [executeTransferTx, hmain]⟩

/-- Witness for C2: alice holds 1 BTC and requests a transfer of 2 BTC. -/
theorem insufficient_funds_spec_witness :
    (idemGet stAliceBob "key9" = none
      ∧ merchantGetByName stAliceBob "alice" = some ("alice", 0)
      ∧ merchantGetByName stAliceBob "bob" = some ("bob", 1)
      ∧ ("alice" : String) ≠ "bob" ∧ (0 : ℚ) < 2
      ∧ balanceGet stAliceBob "alice" "BTC" = some ⟨"alice", "BTC", 1⟩
      ∧ (1 : ℚ) < 2 + quantize8 (2 * (1/10) / 100))
    ∧ (executeTransfer (1/10) stAliceBob "alice" "bob" "BTC" 2 "key9"
        = .error .insufficientFunds
      ∧ executeTransferTx (1/10) stAliceBob "alice" "bob" "BTC" 2 "key9"
          = (.error .insufficientFunds, stAliceBob)) :=
  ⟨⟨rfl, rfl, rfl, by decide, by norm_num, rfl,
    by norm_num [quantize8, roundHalfEven]⟩,
   insufficient_funds_spec (1/10) stAliceBob "alice" "bob" "BTC" 2 "key9"
     ("alice", 0) ("bob", 1) rfl rfl rfl (by decide) (by norm_num)
     (Or.inr ⟨⟨"alice", "BTC", 1⟩, rfl,
       by norm_num [quantize8, roundHalfEven]⟩)⟩

/-! ### Claim C6: the fields of the route-level transfer response -/

theorem dictSet_transferDict (tr : Transfer) (v w : JVal) :
    dictSet (dictSet (transferDict tr) "is_duplicate" v) "message" w
      = transferDict tr ++ [("is_duplicate", v), ("message", w)] := rfl

theorem routeRunAB_eq : routeRunAB = .ok (routeRespAB, stAB1) := by
  have hs : strip "key1" = "key1" := by decide
  have hkey : ¬(strip "key1" = "") := by decide
  have hex : executeTransfer (1/10) stAliceBob "alice" "bob" "BTC" (1/20000)
      (strip "key1") = .ok (respAB, stAB1) := by
    rw [hs]
    exact runAB_eq
  have hprobe : idemGet stAliceBob (strip "key1") = none := rfl
  simp only [routeRunAB, routeExecuteTransfer, routeReqAB]
  rw [if_neg hkey]
  simp only [hprobe, hex]
  rfl

/-- C6 counterexample: the concrete successful route call returns a response
whose key set is not exactly the eight claimed fields — it also carries a
`message` field. -/
theorem route_extra_message_field :
    routeRunAB = .ok (routeRespAB, stAB1)
    ∧ dictKeys routeRespAB
        = ["transfer_id", "from_merchant", "to_merchant", "currency", "amount",
           "fee", "created_at", "is_duplicate", "message"]
    ∧ "message" ∈ dictKeys routeRespAB
    ∧ "message" ∉ (["transfer_id", "from_merchant", "to_merchant", "currency",
        "amount", "fee", "created_at", "is_duplicate"] : List String) :=
  ⟨routeRunAB_eq, rfl, by decide, by decide⟩

/-- C6 (amended).  Every successful route-level `execute_transfer` call on a
fresh key returns a result with exactly the fields transfer_id,
from_merchant, to_merchant, currency, amount, fee, created_at, is_duplicate
and additionally message; replaying the key — with any payload — succeeds
with the same nine fields, the identical transfer_id of the original
transfer, and is_duplicate = true. -/
theorem route_response_fields (p : ℚ) (st0 : State) (req1 req2 : TransferReq)
    (hk : String) (r1 : Dict) (st1 : State)
    (h0 : idemGet st0 (strip hk) = none)
    (hx : routeExecuteTransfer p st0 req1 hk = .ok (r1, st1)) :
    dictKeys r1
      = ["transfer_id", "from_merchant", "to_merchant", "currency", "amount",
         "fee", "created_at", "is_duplicate", "message"]
    ∧ dictGet r1 "is_duplicate" = some (.b false)
    ∧ ∃ r2 : Dict,
        routeExecuteTransfer p st1 req2 hk = .ok (r2, st1)
        ∧ dictKeys r2
            = ["transfer_id", "from_merchant", "to_merchant", "currency",
               "amount", "fee", "created_at", "is_duplicate", "message"]
        ∧ dictGet r2 "transfer_id" = dictGet r1 "transfer_id"
        ∧ dictGet r2 "is_duplicate" = some (.b true) := by
  simp only [routeExecuteTransfer] at hx
  split at hx
  · simp at hx
  rename_i hstrip
  simp only [h0] at hx
  split at hx
  · rename_i pr rr st1' heq
    simp only [Except.ok.injEq, Prod.mk.injEq] at hx
    obtain ⟨hr, hst⟩ := hx
    subst hr
    subst hst
    obtain ⟨tr, -, -, -, hresp, hget⟩ :=
      executeTransfer_ok_shape p st0 req1.from_merchant req1.to_merchant
        req1.currency req1.amount (strip hk) rr st1' h0 heq
    subst hresp
    refine ⟨by rw [dictSet_transferDict]; rfl, rfl, ?_⟩
    refine ⟨dictSet (dictSet (transferDict tr) "is_duplicate" (.b true))
      "message" (.s (duplicateMessage (strip hk))), ?_, ?_, ?_, ?_⟩
    · simp only [routeExecuteTransfer]
      rw [if_neg hstrip]
      simp only [hget]
    · rw [dictSet_transferDict]
      rfl
    · rfl
    · rfl
  · simp at hx
  · simp at hx
  · simp at hx

/-- Witness for C6 (amended), at the concrete alice-to-bob route call and a
replay with a different payload. -/
theorem route_response_fields_witness :
    (idemGet stAliceBob (strip "key1") = none
      ∧ routeExecuteTransfer (1/10) stAliceBob routeReqAB "key1"
          = .ok (routeRespAB, stAB1))
    ∧ (dictKeys routeRespAB
        = ["transfer_id", "from_merchant", "to_merchant", "currency", "amount",
           "fee", "created_at", "is_duplicate", "message"]
      ∧ dictGet routeRespAB "is_duplicate" = some (.b false)
      ∧ ∃ r2 : Dict,
          routeExecuteTransfer (1/10) stAB1 routeReqBA "key1" = .ok (r2, stAB1)
          ∧ dictKeys r2
              = ["transfer_id", "from_merchant", "to_merchant", "currency",
                 "amount", "fee", "created_at", "is_duplicate", "message"]
          ∧ dictGet r2 "transfer_id" = dictGet routeRespAB "transfer_id"
          ∧ dictGet r2 "is_duplicate" = some (.b true)) :=
  ⟨⟨rfl, routeRunAB_eq⟩,
   route_response_fields (1/10) stAliceBob routeReqAB routeReqBA "key1"
     routeRespAB stAB1 rfl routeRunAB_eq⟩

end MiniLedger
